import Mathlib

/-!
Shallow embedding of the AuraScan OCR service (`src/app.py`) and proofs of
the specification claims about it.

External OpenCV / recognition-engine primitives (resize, rotation, blur,
thresholding, morphology, the Tesseract calls) are opaque collaborators of
the program: they are passed in as function parameters, with their
documented contracts (such as dimension preservation) taken as hypotheses
where a claim needs them.  All control flow, filtering, aggregation,
sorting, fallback and response-shaping logic is translated directly from
`src/app.py`.  Floating-point confidences and angles are embedded as
rationals.
-/

namespace AuraScan

/-- A single-channel raster image: dimensions plus a pixel function
(row, column ↦ intensity). -/
structure Img where
  height : ℕ
  width : ℕ
  pix : ℕ → ℕ → ℕ

/-- `np.column_stack(np.where(gray_image < 255))` is nonempty:
some in-range pixel is strictly below 255 (has foreground ink). -/
def hasForeground (img : Img) : Bool :=
  (List.range img.height).any fun y =>
    (List.range img.width).any fun x => decide (img.pix y x < 255)

/-- Angle normalization in `deskew` (src/app.py lines 96-99):
`if angle < -45: angle = -(90 + angle) else: angle = -angle`. -/
def normalizeAngle (angle : ℚ) : ℚ :=
  if angle < -45 then -(90 + angle) else -angle

/-- `deskew` (src/app.py lines 90-112).  `rawAngle` is the value returned by
`cv2.minAreaRect(coords)[-1]` (opaque geometry estimation) and `rotateOp`
is the opaque `cv2.warpAffine` rotation about the image center. -/
def deskew (rotateOp : Img → ℚ → Img) (rawAngle : ℚ) (gray : Img) : Img :=
  if hasForeground gray then
    let angle := normalizeAngle rawAngle
    if |angle| < 1/2 then gray
    else rotateOp gray angle
  else gray

/-- `preprocess_image` (src/app.py lines 115-146), starting from the
grayscale image.  The OpenCV primitives are opaque parameters:
`resizeOp img scale` is `cv2.resize` with factors `fx = fy = scale`,
`blurOp` the Gaussian blur, `otsuOp` / `adaptiveOp` the two binarizations,
`andOp` is `cv2.bitwise_and`, `morphOp` the morphological closing. -/
def preprocess_image (resizeOp : Img → ℚ → Img) (rotateOp : Img → ℚ → Img)
    (blurOp otsuOp adaptiveOp morphOp : Img → Img) (andOp : Img → Img → Img)
    (rawAngle : ℚ) (gray : Img) : Img :=
  let minDim := min gray.height gray.width
  let resized := if minDim < 800 then resizeOp gray ((800 : ℚ) / minDim) else gray
  let deskewed := deskew rotateOp rawAngle resized
  let blurred := blurOp deskewed
  let combined := andOp (otsuOp blurred) (adaptiveOp blurred)
  morphOp combined

/-- An image-to-image operation keeps the pixel dimensions unchanged
(the documented contract of blur / threshold / morphology at fixed size). -/
def preservesDims (f : Img → Img) : Prop :=
  ∀ i : Img, (f i).height = i.height ∧ (f i).width = i.width

/-- Code points of the full-width punctuation literals appearing in
`CHARSET_ALLOWED_PATTERN` (src/app.py lines 85-87), in source order:
， 。 ！ ？ ： ； 、 left/right double and single curly quotes
（ ） 《 》 〈 〉 · — . -/
def fullwidthPunct : List ℕ :=
  [0xFF0C, 0x3002, 0xFF01, 0xFF1F, 0xFF1A, 0xFF1B, 0x3001,
   0x201C, 0x201D, 0x2018, 0x2019, 0xFF08, 0xFF09,
   0x300A, 0x300B, 0x3008, 0x3009, 0xB7, 0x2014]

/-- Membership in the character class of `CHARSET_ALLOWED_PATTERN`:
ASCII digits, ASCII letters, CJK Unified Ideographs U+4E00-U+9FFF,
the full-width punctuation above, and the symbols `_ % + - =`.
`CHARSET_ALLOWED_PATTERN.sub("", value)` deletes exactly the characters on
which this is `false`. -/
def allowedChar (c : Char) : Bool :=
  let n := c.toNat
  (decide (0x30 ≤ n) && decide (n ≤ 0x39)) ||
  (decide (0x41 ≤ n) && decide (n ≤ 0x5A)) ||
  (decide (0x61 ≤ n) && decide (n ≤ 0x7A)) ||
  (decide (0x4E00 ≤ n) && decide (n ≤ 0x9FFF)) ||
  fullwidthPunct.contains n ||
  decide (n = 0x5F) || decide (n = 0x25) || decide (n = 0x2B) ||
  decide (n = 0x2D) || decide (n = 0x3D)

/-- `sanitize_charset` (src/app.py lines 168-173): `None`/empty in, `None`
out; otherwise delete disallowed characters, then delete spaces, and map an
empty survivor string back to `None` (`return clean or None`). -/
def sanitize_charset (value : Option String) : Option String :=
  match value with
  | none => none
  | some s =>
    if s = "" then none
    else
      let clean := s.data.filter allowedChar
      let cleanNoSpace := clean.filter fun c => !(c == ' ')
      if cleanNoSpace = [] then none else some (String.mk cleanNoSpace)

/-- Python's `str.strip()`: drop whitespace from both ends. -/
def pyStrip (s : String) : String :=
  String.mk
    (((s.data.dropWhile Char.isWhitespace).reverse.dropWhile
        Char.isWhitespace).reverse)

/-- Python's `str.lower()` on the ASCII mode hints: lower-case each
character. -/
def pyLower (s : String) : String :=
  String.mk (s.data.map Char.toLower)

/-- Python truthiness of the `Optional[int]` argument in
`if user_psm:` (src/app.py line 177): `None` and `0` are falsy. -/
def optIntTruthy : Option ℤ → Bool
  | none => false
  | some p => p != 0

/-- `determine_psm` (src/app.py lines 176-201) over the image dimensions
(`width, height = image.size`).  The float aspect ratio is embedded as a
rational. -/
def determine_psm (width height : ℕ) (user_psm : Option ℤ)
    (mode : Option String) : ℤ :=
  if optIntTruthy user_psm then user_psm.getD 0
  else
    let normalized_mode := pyLower (mode.getD "")
    if normalized_mode = "single_char" then 10
    else if normalized_mode = "single_line" then 7
    else if normalized_mode = "single_block" then 6
    else if height = 0 ∨ width = 0 then 6
    else
      let aspect : ℚ := (width : ℚ) / (height : ℚ)
      let shortest := min width height
      if shortest < 200 then 10
      else if aspect ≥ 2 then 7
      else if aspect ≤ 1/2 then 5
      else 6

/-- One entry of the parallel arrays returned by
`pytesseract.image_to_data(..., output_type=DICT)`: the fields read by
`accumulate_ocr_lines`.  `conf` is the value after `float(...)` parsing
(parse failures already collapsed to `0.0` by the `except` branch). -/
structure Token where
  level : ℤ
  text : String
  conf : ℚ
  left : ℤ
  top : ℤ
  width : ℤ
  height : ℤ
  block_num : ℕ
  par_num : ℕ
  line_num : ℕ
deriving DecidableEq

/-- Aggregation key `(region_tag, block_num, par_num, line_num)`
(src/app.py lines 240-245). -/
abbrev LineKey := String × ℕ × ℕ × ℕ

/-- Union bounding box of a line accumulator. -/
structure BBox where
  min_x : ℤ
  min_y : ℤ
  max_x : ℤ
  max_y : ℤ
deriving DecidableEq

/-- Value stored in the `container` dict for one aggregation key. -/
structure LineAcc where
  text : String
  confidences : List ℚ
  bbox : BBox
deriving DecidableEq

/-- The `container` dict, as an insertion-ordered association list. -/
abbrev Container := List (LineKey × LineAcc)

/-- Dictionary lookup `key in container` / `container[key]`. -/
def lookupLine : Container → LineKey → Option LineAcc
  | [], _ => none
  | e :: rest, k => if e.1 = k then some e.2 else lookupLine rest k

/-- In-place update `container[key] = f container[key]` of an existing key. -/
def updateLine (c : Container) (k : LineKey) (f : LineAcc → LineAcc) : Container :=
  c.map fun e => if e.1 = k then (e.1, f e.2) else e

/-- The body of the loop in `accumulate_ocr_lines` (src/app.py lines
220-260) for one entry: filter out non-word levels, non-positive
confidences and empty stripped text; otherwise merge the token into the
container under its aggregation key (create on first sight, else append
text and confidence and enlarge the union bounding box). -/
def processToken (offset_x offset_y : ℤ) (region_tag : String)
    (container : Container) (tok : Token) : Container :=
  let text := pyStrip tok.text
  if tok.level ≠ 5 ∨ tok.conf ≤ 0 ∨ text = "" then container
  else
    let left := tok.left + offset_x
    let top := tok.top + offset_y
    let x1 := left
    let y1 := top
    let x3 := left + tok.width
    let y3 := top + tok.height
    let key : LineKey := (region_tag, tok.block_num, tok.par_num, tok.line_num)
    match lookupLine container key with
    | none =>
      container ++ [(key, ⟨text, [tok.conf], ⟨x1, y1, x3, y3⟩⟩)]
    | some _ =>
      updateLine container key fun acc =>
        { text := acc.text ++ " " ++ text
          confidences := acc.confidences ++ [tok.conf]
          bbox := ⟨min acc.bbox.min_x x1, min acc.bbox.min_y y1,
                   max acc.bbox.max_x x3, max acc.bbox.max_y y3⟩ }

/-- `accumulate_ocr_lines` (src/app.py lines 213-260): fold the loop body
over the engine's token entries. -/
def accumulate_ocr_lines (ocr_data : List Token) (offset_x offset_y : ℤ)
    (region_tag : String) (container : Container) : Container :=
  ocr_data.foldl (processToken offset_x offset_y region_tag) container

/-- Python's string comparison on lists of characters: code-point
lexicographic, a strict prefix preceding its extensions. -/
def tagLtB : List Char → List Char → Bool
  | [], [] => false
  | [], _ :: _ => true
  | _ :: _, [] => false
  | a :: as, b :: bs =>
    if a < b then true else if b < a then false else tagLtB as bs

/-- Python's string comparison, on `String`. -/
def strLtB (a b : String) : Bool := tagLtB a.data b.data

/-- Python's tuple comparison on aggregation keys: lexicographic, with the
region tag compared as a string (code-point lexicographic). -/
def keyLt (a b : LineKey) : Prop :=
  strLtB a.1 b.1 = true ∨ a.1 = b.1 ∧
    (a.2.1 < b.2.1 ∨ a.2.1 = b.2.1 ∧
      (a.2.2.1 < b.2.2.1 ∨ a.2.2.1 = b.2.2.1 ∧ a.2.2.2 < b.2.2.2))

/-- Non-strict version of `keyLt`, the order `sorted(lines.keys())` sorts by. -/
def keyLe (a b : LineKey) : Prop := keyLt a b ∨ a = b

instance keyLt.decidableRel : DecidableRel keyLt := fun a b => by
  unfold keyLt
  exact inferInstance

instance keyLe.decidableRel : DecidableRel keyLe := fun a b => by
  unfold keyLe
  exact inferInstance

theorem tagLtB_trans : ∀ (a b c : List Char),
    tagLtB a b = true → tagLtB b c = true → tagLtB a c = true := by
  intro a
  induction a with
  | nil =>
    intro b c h1 h2
    cases c with
    | nil =>
      cases b with
      | nil => exact absurd h1 (by simp [tagLtB])
      | cons y ys => exact absurd h2 (by simp [tagLtB])
    | cons z zs => simp [tagLtB]
  | cons x xs ih =>
    intro b c h1 h2
    cases b with
    | nil => exact absurd h1 (by simp [tagLtB])
    | cons y ys =>
      cases c with
      | nil => exact absurd h2 (by simp [tagLtB])
      | cons z zs =>
        simp only [tagLtB] at h1 h2 ⊢
        by_cases hxy : x < y
        · by_cases hyz : y < z
          · simp [lt_trans hxy hyz]
          · by_cases hzy : z < y
            · simp [if_neg hyz, if_pos hzy] at h2
            · have hyzeq : y = z := le_antisymm (not_lt.mp hzy) (not_lt.mp hyz)
              simp [hyzeq ▸ hxy]
        · by_cases hyx : y < x
          · simp [if_neg hxy, if_pos hyx] at h1
          · have hxyeq : x = y := le_antisymm (not_lt.mp hyx) (not_lt.mp hxy)
            simp only [if_neg hxy, if_neg hyx] at h1
            by_cases hyz : y < z
            · simp [hxyeq ▸ hyz]
            · by_cases hzy : z < y
              · simp [if_neg hyz, if_pos hzy] at h2
              · have hyzeq : y = z := le_antisymm (not_lt.mp hzy) (not_lt.mp hyz)
                simp only [if_neg hyz, if_neg hzy] at h2
                have hxz : ¬ x < z := by rw [hxyeq, hyzeq]; exact lt_irrefl z
                have hzx : ¬ z < x := by rw [hxyeq, hyzeq]; exact lt_irrefl z
                simp [if_neg hxz, if_neg hzx, ih ys zs h1 h2]

theorem tagLtB_connex : ∀ (a b : List Char),
    tagLtB a b = true ∨ tagLtB b a = true ∨ a = b := by
  intro a
  induction a with
  | nil =>
    intro b
    cases b with
    | nil => right; right; rfl
    | cons y ys => left; simp [tagLtB]
  | cons x xs ih =>
    intro b
    cases b with
    | nil => right; left; simp [tagLtB]
    | cons y ys =>
      rcases lt_trichotomy x y with hxy | hxy | hxy
      · left; simp [tagLtB, hxy]
      · subst hxy
        rcases ih ys with h | h | h
        · left; simp [tagLtB, h]
        · right; left; simp [tagLtB, h]
        · right; right; rw [h]
      · right; left; simp [tagLtB, hxy]

theorem strLtB_trans (a b c : String) (h1 : strLtB a b = true)
    (h2 : strLtB b c = true) : strLtB a c = true :=
  tagLtB_trans a.data b.data c.data h1 h2

theorem strLtB_connex (a b : String) :
    strLtB a b = true ∨ strLtB b a = true ∨ a = b := by
  rcases tagLtB_connex a.data b.data with h | h | h
  · exact Or.inl h
  · exact Or.inr (Or.inl h)
  · refine Or.inr (Or.inr ?_)
    cases a; cases b
    simp only [String.data] at h
    rw [h]

theorem keyLt_trans (a b c : LineKey) (h1 : keyLt a b) (h2 : keyLt b c) :
    keyLt a c := by
  rcases h1 with h1 | ⟨e1, h1⟩
  · rcases h2 with h2 | ⟨e2, h2⟩
    · exact Or.inl (strLtB_trans _ _ _ h1 h2)
    · exact Or.inl (e2 ▸ h1)
  · rcases h2 with h2 | ⟨e2, h2⟩
    · exact Or.inl (e1 ▸ h2)
    · exact Or.inr ⟨e1.trans e2, by omega⟩

instance : IsTrans LineKey keyLe where
  trans a b c h1 h2 := by
    rcases h1 with h1 | rfl
    · rcases h2 with h2 | rfl
      · exact Or.inl (keyLt_trans a b c h1 h2)
      · exact Or.inl h1
    · exact h2

instance : IsTotal LineKey keyLe where
  total a b := by
    rcases strLtB_connex a.1 b.1 with h | h | h
    · exact Or.inl (Or.inl (Or.inl h))
    · exact Or.inr (Or.inl (Or.inl h))
    · rcases a with ⟨s1, n1, n2, n3⟩
      rcases b with ⟨t1, m1, m2, m3⟩
      simp only at h
      subst h
      have htri : (n1 < m1 ∨ n1 = m1 ∧ (n2 < m2 ∨ n2 = m2 ∧ n3 < m3)) ∨
          (m1 < n1 ∨ m1 = n1 ∧ (m2 < n2 ∨ m2 = n2 ∧ m3 < n3)) ∨
          (n1 = m1 ∧ n2 = m2 ∧ n3 = m3) := by omega
      rcases htri with h | h | ⟨e1, e2, e3⟩
      · exact Or.inl (Or.inl (Or.inr ⟨rfl, h⟩))
      · exact Or.inr (Or.inl (Or.inr ⟨rfl, h⟩))
      · subst e1; subst e2; subst e3
        exact Or.inl (Or.inr rfl)

/-- `sorted(lines.keys())` (src/app.py line 266). -/
def sortedKeys (c : Container) : List LineKey :=
  (c.map Prod.fst).insertionSort keyLe

/-- `avg_confidence` (src/app.py lines 268-272). -/
def avgConfidence (l : List ℚ) : ℚ :=
  if l = [] then 0 else l.sum / l.length

/-- One finalized line record as appended to `results`
(src/app.py lines 276-287). -/
structure OcrResult where
  text : String
  confidence : ℚ
  text_region : List (List ℤ)
deriving DecidableEq

/-- Finalize one accumulator into an output record. -/
def finalizeRecord (acc : LineAcc) : OcrResult :=
  { text := acc.text
    confidence := avgConfidence acc.confidences / 100
    text_region :=
      [[acc.bbox.min_x, acc.bbox.min_y], [acc.bbox.max_x, acc.bbox.min_y],
       [acc.bbox.max_x, acc.bbox.max_y], [acc.bbox.min_x, acc.bbox.max_y]] }

/-- The confidence value appended to `confidences` for one line
(src/app.py lines 274-275). -/
def finalizeConf (acc : LineAcc) : ℚ :=
  avgConfidence acc.confidences / 100

/-- `lines_to_results` (src/app.py lines 263-288): iterate the keys in
sorted order, appending each finalized record and its confidence. -/
def lines_to_results (lines : Container) : List OcrResult × List ℚ :=
  (sortedKeys lines).foldl
    (fun acc k =>
      match lookupLine lines k with
      | none => acc
      | some line => (acc.1 ++ [finalizeRecord line], acc.2 ++ [finalizeConf line]))
    ([], [])

/-- A text region rectangle `(x, y, w, h)` from `detect_text_regions`. -/
structure Region where
  x : ℤ
  y : ℤ
  w : ℤ
  h : ℤ
deriving DecidableEq

/-- The f-string `f"region_{region_idx}"` (src/app.py line 305). -/
def regionTag (i : ℕ) : String := "region_" ++ toString i

/-- The accumulation loop of `run_ocr_with_config` (src/app.py lines
296-305).  `engine idx r` stands for the token entries Tesseract returns
for the crop of region `r` (the crop and the config string are folded into
the opaque engine parameter). -/
def buildContainer (engine : ℕ → Region → List Token)
    (regions : List Region) : Container :=
  regions.enum.foldl
    (fun c p => accumulate_ocr_lines (engine p.1 p.2) p.2.x p.2.y (regionTag p.1) c)
    []

/-- `run_ocr_with_config` (src/app.py lines 291-306). -/
def run_ocr_with_config (engine : ℕ → Region → List Token)
    (regions : List Region) : List OcrResult × List ℚ :=
  lines_to_results (buildContainer engine regions)

/-- `mean_confidence` (src/app.py lines 392-396 and 419-423):
arithmetic mean of the per-record confidences, `0.0` on an empty list. -/
def meanOf (l : List ℚ) : ℚ :=
  if l = [] then 0 else l.sum / l.length

/-- The low-confidence retry block of `predict_ocr_system` (src/app.py
lines 399-428).  `initial` is `(formatted_results, confidence_values)` from
the first `run_ocr_with_config` call and `retryRun` the result the psm-10
rerun would produce.  Returns the surviving `(results, confidences)` pair
together with whether the retry was attempted. -/
def fallbackStage (threshold : ℚ) (selected_psm : ℤ)
    (initial retryRun : List OcrResult × List ℚ) :
    (List OcrResult × List ℚ) × Bool :=
  let mean_confidence := meanOf initial.2
  if (initial.1 = [] ∨ mean_confidence < threshold) ∧ selected_psm ≠ 10 then
    if retryRun.1 = [] then (initial, true) else (retryRun, true)
  else (initial, false)

/-- The whole-image `image_to_string` fallback (src/app.py lines 431-443).
`rawSimpleText` is the engine's raw return value, stripped before the
emptiness test; a surviving text is appended as a single record with
nominal confidence `0.5` spanning the full image. -/
def wholeImageStage (imgWidth imgHeight : ℤ) (rawSimpleText : String)
    (current : List OcrResult) : List OcrResult :=
  if current = [] then
    let simple_text := pyStrip rawSimpleText
    if simple_text = "" then current
    else
      current ++ [{ text := simple_text
                    confidence := 1/2
                    text_region := [[0, 0], [imgWidth, 0],
                                    [imgWidth, imgHeight], [0, imgHeight]] }]
  else current

/-- The response body (src/app.py lines 446-449): a status message and the
`results` field. -/
def buildResponse (finalResults : List OcrResult) :
    String × List (List OcrResult) :=
  ("Success", if finalResults = [] then [[]] else [finalResults])

/-- Observable outcome of one run of the recognition part of
`predict_ocr_system`. -/
structure PredictTrace where
  response : String × List (List OcrResult)
  finalResults : List OcrResult
  finalConfs : List ℚ
  retried : Bool
deriving DecidableEq

/-- The recognition/fallback/response core of `predict_ocr_system`
(src/app.py lines 386-452), after parameter parsing and preprocessing:
initial `run_ocr_with_config`, the confidence-gated psm-10 retry, the
whole-image fallback, and the response shape.  `initialEngine` and
`fallbackEngine` stand for Tesseract under the initial and the psm-10
config respectively. -/
def predictCore (threshold : ℚ) (selected_psm : ℤ)
    (initialEngine fallbackEngine : ℕ → Region → List Token)
    (regions : List Region) (imgWidth imgHeight : ℤ)
    (rawSimpleText : String) : PredictTrace :=
  let initial := run_ocr_with_config initialEngine regions
  let retryRun := run_ocr_with_config fallbackEngine regions
  let afterRetry := fallbackStage threshold selected_psm initial retryRun
  let final := wholeImageStage imgWidth imgHeight rawSimpleText afterRetry.1.1
  { response := buildResponse final
    finalResults := final
    finalConfs := afterRetry.1.2
    retried := afterRetry.2 }

/-- Default of `OCR_FALLBACK_THRESHOLD` (src/app.py line 399). -/
def defaultFallbackThreshold : ℚ := 1/2

/-- A word-level token with the given text, used in the region-order
counterexample scenario. -/
def ceToken (t : String) : Token := ⟨5, t, 90, 0, 0, 10, 10, 1, 1, 1⟩

/-- Eleven stacked text regions, as the segmenter would produce for eleven
text lines. -/
def ceRegions : List Region := (List.range 11).map fun i => ⟨0, 10 * i, 10, 10⟩

/-- An engine run that recognizes one word in region index 2 and one word
in region index 10, and nothing elsewhere. -/
def ceEngine : ℕ → Region → List Token := fun i _ =>
  if i = 2 then [ceToken "w2"] else if i = 10 then [ceToken "w10"] else []

end AuraScan

namespace AuraScan

/-- C7 helper: an all-white image has no foreground coordinates. -/
theorem hasForeground_allwhite (img : Img) (hwhite : ∀ y x, img.pix y x = 255) :
    hasForeground img = false := by
  unfold hasForeground
  simp [List.any_eq_false, hwhite]

/-- Helper: exactly when the low-confidence retry block is entered
(src/app.py lines 400-403). -/
theorem fallbackStage_retried (threshold : ℚ) (selected_psm : ℤ)
    (initial retryRun : List OcrResult × List ℚ) :
    (fallbackStage threshold selected_psm initial retryRun).2 = true ↔
      ((initial.1 = [] ∨ meanOf initial.2 < threshold) ∧ selected_psm ≠ 10) := by
  unfold fallbackStage
  dsimp only
  by_cases h : (initial.1 = [] ∨ meanOf initial.2 < threshold) ∧ selected_psm ≠ 10
  · rw [if_pos h]
    by_cases hr : retryRun.1 = []
    · rw [if_pos hr]
      simpa using h
    · rw [if_neg hr]
      simpa using h
  · rw [if_neg h]
    simpa using h

/-- C2 (corrected claim, counterexample): a caller-supplied explicit psm of
`0` does not win: with mode hint `single_char` the selector returns `10`,
not the supplied `0`, because `if user_psm:` treats `0` as absent. -/
theorem C2_counterexample :
    determine_psm 640 480 (some 0) (some "single_char") = 10 ∧ (10 : ℤ) ≠ 0 := by
  decide

/-- C2 (amended): for every caller-supplied explicit NONZERO numeric psm
value, `determine_psm` returns exactly that value, regardless of the mode
hint and the image dimensions.  (The value `0` is Python-falsy and falls
through to the hint/geometry logic.) -/
theorem C2_nonzero_psm_wins (width height : ℕ) (user_psm : ℤ)
    (mode : Option String) (h : user_psm ≠ 0) :
    determine_psm width height (some user_psm) mode = user_psm := by
  unfold determine_psm
  have ht : optIntTruthy (some user_psm) = true := by
    simp [optIntTruthy, h]
  rw [if_pos ht]
  rfl

/-- Witness for C2: psm 3 is returned verbatim. -/
theorem C2_witness :
    (3 : ℤ) ≠ 0 ∧ determine_psm 640 480 (some 3) (some "single_char") = 3 :=
  ⟨by decide, C2_nonzero_psm_wins 640 480 3 (some "single_char") (by decide)⟩

/-- C3: the single-character retry is attempted exactly when (the initial
attempt produced no records OR the mean confidence across the produced
records is strictly below the threshold) AND the selected strategy was not
already psm 10; in particular every mean confidence strictly below the
threshold with a non-psm-10 initial strategy triggers the retry. -/
theorem C3_retry_trigger (threshold : ℚ) (selected_psm : ℤ)
    (initialEngine fallbackEngine : ℕ → Region → List Token)
    (regions : List Region) (imgWidth imgHeight : ℤ) (rawSimpleText : String) :
    ((predictCore threshold selected_psm initialEngine fallbackEngine regions
        imgWidth imgHeight rawSimpleText).retried = true ↔
      (((run_ocr_with_config initialEngine regions).1 = [] ∨
          meanOf (run_ocr_with_config initialEngine regions).2 < threshold) ∧
        selected_psm ≠ 10)) ∧
    (meanOf (run_ocr_with_config initialEngine regions).2 < threshold →
      selected_psm ≠ 10 →
      (predictCore threshold selected_psm initialEngine fallbackEngine regions
        imgWidth imgHeight rawSimpleText).retried = true) := by
  have hmain : (predictCore threshold selected_psm initialEngine fallbackEngine
      regions imgWidth imgHeight rawSimpleText).retried =
      (fallbackStage threshold selected_psm
        (run_ocr_with_config initialEngine regions)
        (run_ocr_with_config fallbackEngine regions)).2 := rfl
  constructor
  · rw [hmain]
    exact fallbackStage_retried threshold selected_psm
      (run_ocr_with_config initialEngine regions)
      (run_ocr_with_config fallbackEngine regions)
  · intro h1 h2
    rw [hmain]
    exact (fallbackStage_retried threshold selected_psm
      (run_ocr_with_config initialEngine regions)
      (run_ocr_with_config fallbackEngine regions)).mpr ⟨Or.inr h1, h2⟩

/-- Witness for C3: mean confidence 0 under threshold 1 with psm 6 triggers
the retry. -/
theorem C3_witness :
    meanOf (run_ocr_with_config (fun _ _ => []) ([] : List Region)).2 < 1 ∧
    (6 : ℤ) ≠ 10 ∧
    (predictCore 1 6 (fun _ _ => []) (fun _ _ => []) [] 4 4 "").retried = true :=
  ⟨by decide, by decide,
    (C3_retry_trigger 1 6 (fun _ _ => []) (fun _ _ => []) [] 4 4 "").2
      (by decide) (by decide)⟩

/-- C4: whenever the retry is run, a non-empty retry result replaces the
initial records and confidences unconditionally, and an empty retry result
leaves the initial attempt in place. -/
theorem C4_retry_replaces (threshold : ℚ) (selected_psm : ℤ)
    (initial retryRun : List OcrResult × List ℚ) :
    ((fallbackStage threshold selected_psm initial retryRun).2 = true →
      retryRun.1 ≠ [] →
      (fallbackStage threshold selected_psm initial retryRun).1 = retryRun) ∧
    ((fallbackStage threshold selected_psm initial retryRun).2 = true →
      retryRun.1 = [] →
      (fallbackStage threshold selected_psm initial retryRun).1 = initial) := by
  unfold fallbackStage
  dsimp only
  by_cases h : (initial.1 = [] ∨ meanOf initial.2 < threshold) ∧ selected_psm ≠ 10
  · rw [if_pos h]
    constructor
    · intro _ hne
      rw [if_neg hne]
    · intro _ he
      rw [if_pos he]
  · rw [if_neg h]
    exact ⟨fun hfalse _ => absurd hfalse (by simp), fun _ _ => rfl⟩

/-- Witness for C4: an empty initial attempt is replaced by the non-empty
retry result even though the retry's confidence is not compared. -/
theorem C4_witness :
    (fallbackStage 1 6 ([], []) ([⟨"x", 90, []⟩], [90])).1 =
      ([⟨"x", 90, []⟩], [90]) :=
  (C4_retry_replaces 1 6 ([], []) ([⟨"x", 90, []⟩], [90])).1
    (by decide) (by decide)

/-- C5: when the pipeline completes with an empty final record list the
response is the success message with `results = [[]]` (one empty inner
list, never an empty outer list), and with a non-empty final record list
the response is the success message with that single list wrapped once. -/
theorem C5_response_shape (threshold : ℚ) (selected_psm : ℤ)
    (initialEngine fallbackEngine : ℕ → Region → List Token)
    (regions : List Region) (imgWidth imgHeight : ℤ) (rawSimpleText : String) :
    ((predictCore threshold selected_psm initialEngine fallbackEngine regions
        imgWidth imgHeight rawSimpleText).finalResults = [] →
      (predictCore threshold selected_psm initialEngine fallbackEngine regions
        imgWidth imgHeight rawSimpleText).response = ("Success", [[]])) ∧
    ((predictCore threshold selected_psm initialEngine fallbackEngine regions
        imgWidth imgHeight rawSimpleText).finalResults ≠ [] →
      (predictCore threshold selected_psm initialEngine fallbackEngine regions
        imgWidth imgHeight rawSimpleText).response =
        ("Success", [(predictCore threshold selected_psm initialEngine
          fallbackEngine regions imgWidth imgHeight rawSimpleText).finalResults])) := by
  have hresp : (predictCore threshold selected_psm initialEngine fallbackEngine
      regions imgWidth imgHeight rawSimpleText).response =
      buildResponse ((predictCore threshold selected_psm initialEngine
        fallbackEngine regions imgWidth imgHeight rawSimpleText).finalResults) := rfl
  constructor
  · intro h
    rw [hresp, h]
    rfl
  · intro h
    rw [hresp]
    unfold buildResponse
    rw [if_neg h]

/-- Witness for C5: a run where initial attempt, retry and whole-image
fallback all produce nothing answers `("Success", [[]])`. -/
theorem C5_witness :
    (predictCore 1 6 (fun _ _ => []) (fun _ _ => []) [] 4 4 "").response =
      ("Success", [[]]) :=
  (C5_response_shape 1 6 (fun _ _ => []) (fun _ _ => []) [] 4 4 "").1 (by decide)

/-- Helper: deskew returns its input (without calling the rotation
transform) when the corrected angle is at most 0.4 degrees in absolute
value, for any rotation operation. -/
theorem deskew_small_angle (rotateOp : Img → ℚ → Img) (rawAngle : ℚ)
    (gray : Img) (hangle : |normalizeAngle rawAngle| ≤ 2/5) :
    deskew rotateOp rawAngle gray = gray := by
  unfold deskew
  dsimp only
  by_cases hf : hasForeground gray = true
  · rw [if_pos hf, if_pos (lt_of_le_of_lt hangle (by norm_num))]
  · rw [if_neg hf]

/-- C6: for every image whose shorter side is at least 800 pixels and whose
estimated (corrected) skew angle is within 0.4 degrees of zero, the
normalizer performs no upscaling and no rotation: the output binary map has
the input's pixel dimensions, and deskew returns its input without invoking
the rotation transform (the result does not depend on `rotateOp`).  The
blur, threshold, bitwise-and and morphology collaborators are assumed
dimension-preserving, their documented contract at fixed kernel size. -/
theorem C6_no_upscale_no_rotation (resizeOp rotateOp : Img → ℚ → Img)
    (blurOp otsuOp adaptiveOp morphOp : Img → Img) (andOp : Img → Img → Img)
    (rawAngle : ℚ) (gray : Img)
    (hsize : 800 ≤ min gray.height gray.width)
    (hangle : |normalizeAngle rawAngle| ≤ 2/5)
    (hblur : preservesDims blurOp) (hotsu : preservesDims otsuOp)
    (hadaptive : preservesDims adaptiveOp) (hmorph : preservesDims morphOp)
    (hand : ∀ a b, (andOp a b).height = a.height ∧ (andOp a b).width = a.width) :
    (preprocess_image resizeOp rotateOp blurOp otsuOp adaptiveOp morphOp andOp
        rawAngle gray).height = gray.height ∧
    (preprocess_image resizeOp rotateOp blurOp otsuOp adaptiveOp morphOp andOp
        rawAngle gray).width = gray.width ∧
    deskew rotateOp rawAngle gray = gray := by
  have hno : ¬ min gray.height gray.width < 800 := not_lt.mpr hsize
  have hdeskew : deskew rotateOp rawAngle gray = gray :=
    deskew_small_angle rotateOp rawAngle gray hangle
  refine ⟨?_, ?_, hdeskew⟩
  · unfold preprocess_image
    dsimp only
    rw [if_neg hno, hdeskew, (hmorph _).1, (hand _ _).1, (hotsu _).1, (hblur _).1]
  · unfold preprocess_image
    dsimp only
    rw [if_neg hno, hdeskew, (hmorph _).2, (hand _ _).2, (hotsu _).2, (hblur _).2]

/-- Witness for C6: an 800 x 900 all-white image with raw angle 0 passes
through identity collaborators unchanged. -/
theorem C6_witness :
    (preprocess_image (fun i _ => i) (fun i _ => i) (fun i => i) (fun i => i)
        (fun i => i) (fun i => i) (fun a _ => a) 0
        ⟨800, 900, fun _ _ => 255⟩).height = 800 ∧
    (preprocess_image (fun i _ => i) (fun i _ => i) (fun i => i) (fun i => i)
        (fun i => i) (fun i => i) (fun a _ => a) 0
        ⟨800, 900, fun _ _ => 255⟩).width = 900 ∧
    deskew (fun i _ => i) 0 ⟨800, 900, fun _ _ => 255⟩ =
      ⟨800, 900, fun _ _ => 255⟩ :=
  C6_no_upscale_no_rotation (fun i _ => i) (fun i _ => i) (fun i => i)
    (fun i => i) (fun i => i) (fun i => i) (fun a _ => a) 0
    ⟨800, 900, fun _ _ => 255⟩ (by decide)
    (by simp [normalizeAngle]; norm_num)
    (fun i => ⟨rfl, rfl⟩) (fun i => ⟨rfl, rfl⟩) (fun i => ⟨rfl, rfl⟩)
    (fun i => ⟨rfl, rfl⟩) (fun a b => ⟨rfl, rfl⟩)

/-- C7: for every grayscale image whose pixels are all 255 (all-white, no
foreground), deskew returns the input unchanged and never reaches the
angle estimation or rotation (the result does not depend on `rotateOp` or
on the estimated angle). -/
theorem C7_allwhite_deskew_id (rotateOp : Img → ℚ → Img) (rawAngle : ℚ)
    (img : Img) (hwhite : ∀ y x, img.pix y x = 255) :
    deskew rotateOp rawAngle img = img := by
  unfold deskew
  rw [hasForeground_allwhite img hwhite]
  simp

/-- Witness for C7: a concrete 2 x 2 all-white image is returned unchanged
under an arbitrary rotation operation and angle. -/
theorem C7_witness :
    deskew (fun i _ => i) 37 ⟨2, 2, fun _ _ => 255⟩ = ⟨2, 2, fun _ _ => 255⟩ :=
  C7_allwhite_deskew_id (fun i _ => i) 37 ⟨2, 2, fun _ _ => 255⟩
    (fun _ _ => rfl)

/-- C8: the sanitizer returns `None` for `None` and for the empty string;
every character of a returned string is in the allowed class and is not a
space; and when no character of the input survives the stripping it
returns `None`. -/
theorem C8_sanitizer_allowed :
    sanitize_charset none = none ∧
    sanitize_charset (some "") = none ∧
    (∀ s out, sanitize_charset (some s) = some out →
      ∀ c ∈ out.data, allowedChar c = true ∧ c ≠ ' ') ∧
    (∀ s, (s.data.filter allowedChar).filter (fun c => !(c == ' ')) = [] →
      sanitize_charset (some s) = none) := by
  refine ⟨rfl, rfl, ?_, ?_⟩
  · intro s out h c hc
    unfold sanitize_charset at h
    dsimp only at h
    by_cases hs : s = ""
    · rw [if_pos hs] at h
      exact absurd h (by simp)
    · rw [if_neg hs] at h
      by_cases hemp : (s.data.filter allowedChar).filter (fun c => !(c == ' ')) = []
      · rw [if_pos hemp] at h
        exact absurd h (by simp)
      · rw [if_neg hemp] at h
        have hout : out =
            String.mk ((s.data.filter allowedChar).filter (fun c => !(c == ' '))) := by
          injection h with h2
          exact h2.symm
        subst hout
        have hc1 := List.mem_filter.mp hc
        have hc2 := List.mem_filter.mp hc1.1
        refine ⟨hc2.2, ?_⟩
        have := hc1.2
        simpa using this
  · intro s hemp
    unfold sanitize_charset
    dsimp only
    by_cases hs : s = ""
    · rw [if_pos hs]
    · rw [if_neg hs]
      rw [if_pos hemp]

/-- Witness for C8: sanitizing the allow-list `"a <b"` keeps exactly `ab`,
and its first character is allowed and is not a space. -/
theorem C8_witness :
    sanitize_charset (some "a <b") = some "ab" ∧
    (allowedChar 'a' = true ∧ 'a' ≠ ' ') :=
  ⟨by decide,
    C8_sanitizer_allowed.2.2.1 "a <b" "ab" (by decide) 'a' (by decide)⟩

/-- Helper: a token failing the word-level/confidence/text filter leaves
the container untouched. -/
theorem processToken_skip (ox oy : ℤ) (tag : String) (c : Container)
    (tok : Token) (h : tok.level ≠ 5 ∨ tok.conf ≤ 0 ∨ pyStrip tok.text = "") :
    processToken ox oy tag c tok = c := by
  unfold processToken
  dsimp only
  rw [if_pos h]

/-- Helper: an accepted token whose key is new is appended at the end. -/
theorem processToken_new (ox oy : ℤ) (tag : String) (c : Container)
    (tok : Token)
    (h : ¬ (tok.level ≠ 5 ∨ tok.conf ≤ 0 ∨ pyStrip tok.text = ""))
    (hl : lookupLine c (tag, tok.block_num, tok.par_num, tok.line_num) = none) :
    processToken ox oy tag c tok =
      c ++ [((tag, tok.block_num, tok.par_num, tok.line_num),
        ⟨pyStrip tok.text, [tok.conf],
          ⟨tok.left + ox, tok.top + oy,
           tok.left + ox + tok.width, tok.top + oy + tok.height⟩⟩)] := by
  unfold processToken
  dsimp only
  rw [if_neg h, hl]

/-- Helper: an accepted token whose key already exists updates that entry
in place, appending text and confidence and enlarging the bounding box. -/
theorem processToken_merge (ox oy : ℤ) (tag : String) (c : Container)
    (tok : Token) (acc0 : LineAcc)
    (h : ¬ (tok.level ≠ 5 ∨ tok.conf ≤ 0 ∨ pyStrip tok.text = ""))
    (hl : lookupLine c (tag, tok.block_num, tok.par_num, tok.line_num) = some acc0) :
    processToken ox oy tag c tok =
      updateLine c (tag, tok.block_num, tok.par_num, tok.line_num) fun acc =>
        { text := acc.text ++ " " ++ pyStrip tok.text
          confidences := acc.confidences ++ [tok.conf]
          bbox := ⟨min acc.bbox.min_x (tok.left + ox),
                   min acc.bbox.min_y (tok.top + oy),
                   max acc.bbox.max_x (tok.left + ox + tok.width),
                   max acc.bbox.max_y (tok.top + oy + tok.height)⟩ } := by
  unfold processToken
  dsimp only
  rw [if_neg h, hl]

/-- Helper: looking up the key of an in-place update sees the update. -/
theorem lookupLine_updateLine (c : Container) (k : LineKey)
    (f : LineAcc → LineAcc) :
    lookupLine (updateLine c k f) k = (lookupLine c k).map f := by
  induction c with
  | nil => rfl
  | cons e rest ih =>
    by_cases he : e.1 = k
    · simp [updateLine, lookupLine, he]
    · simpa [updateLine, lookupLine, he] using ih

/-- Helper: appending a fresh key at the end makes it found. -/
theorem lookupLine_append (c : Container) (k : LineKey) (v : LineAcc)
    (h : lookupLine c k = none) : lookupLine (c ++ [(k, v)]) k = some v := by
  induction c with
  | nil => simp [lookupLine]
  | cons e rest ih =>
    simp only [lookupLine] at h
    by_cases he : e.1 = k
    · rw [if_pos he] at h
      exact absurd h (by simp)
    · rw [if_neg he] at h
      rw [List.cons_append]
      simp only [lookupLine]
      rw [if_neg he]
      exact ih h

/-- C9: token aggregation is idempotent on the union bounding box: merging
the same token a second time under the identical key leaves the record's
bounding box `(min_x, min_y, max_x, max_y)` unchanged. -/
theorem C9_bbox_idempotent (container : Container) (offset_x offset_y : ℤ)
    (region_tag : String) (tok : Token) :
    (lookupLine
        (processToken offset_x offset_y region_tag
          (processToken offset_x offset_y region_tag container tok) tok)
        (region_tag, tok.block_num, tok.par_num, tok.line_num)).map
      LineAcc.bbox =
    (lookupLine (processToken offset_x offset_y region_tag container tok)
        (region_tag, tok.block_num, tok.par_num, tok.line_num)).map
      LineAcc.bbox := by
  by_cases hskip : tok.level ≠ 5 ∨ tok.conf ≤ 0 ∨ pyStrip tok.text = ""
  · rw [processToken_skip offset_x offset_y region_tag container tok hskip,
      processToken_skip offset_x offset_y region_tag container tok hskip]
  · cases hl : lookupLine container
        (region_tag, tok.block_num, tok.par_num, tok.line_num) with
    | none =>
      have h1 := processToken_new offset_x offset_y region_tag container tok
        hskip hl
      have h2 : lookupLine
          (processToken offset_x offset_y region_tag container tok)
          (region_tag, tok.block_num, tok.par_num, tok.line_num) =
          some ⟨pyStrip tok.text, [tok.conf],
            ⟨tok.left + offset_x, tok.top + offset_y,
             tok.left + offset_x + tok.width,
             tok.top + offset_y + tok.height⟩⟩ := by
        rw [h1]
        exact lookupLine_append container _ _ hl
      rw [processToken_merge offset_x offset_y region_tag _ tok _ hskip h2,
        lookupLine_updateLine, h2]
      simp
    | some acc0 =>
      have h1 := processToken_merge offset_x offset_y region_tag container tok
        acc0 hskip hl
      have h2 : lookupLine
          (processToken offset_x offset_y region_tag container tok)
          (region_tag, tok.block_num, tok.par_num, tok.line_num) =
          some { text := acc0.text ++ " " ++ pyStrip tok.text
                 confidences := acc0.confidences ++ [tok.conf]
                 bbox := ⟨min acc0.bbox.min_x (tok.left + offset_x),
                          min acc0.bbox.min_y (tok.top + offset_y),
                          max acc0.bbox.max_x (tok.left + offset_x + tok.width),
                          max acc0.bbox.max_y (tok.top + offset_y + tok.height)⟩ } := by
        rw [h1, lookupLine_updateLine, hl]
        rfl
      rw [processToken_merge offset_x offset_y region_tag _ tok _ hskip h2,
        lookupLine_updateLine, h2]
      simp [min_assoc, max_assoc]

/-- Helper: a left fold preserves any invariant its step preserves. -/
theorem foldl_preserve {α β : Type} (P : β → Prop) (f : β → α → β)
    (l : List α) (b : β) (hb : P b) (hf : ∀ c a, P c → P (f c a)) :
    P (l.foldl f b) := by
  induction l generalizing b with
  | nil => exact hb
  | cons x xs ih => exact ih (f b x) (hf b x hb)

/-- Helper: one token step keeps every stored confidence list non-empty. -/
theorem processToken_confs_nonempty (ox oy : ℤ) (tag : String)
    (c : Container) (tok : Token)
    (h : ∀ e ∈ c, e.2.confidences ≠ []) :
    ∀ e ∈ processToken ox oy tag c tok, e.2.confidences ≠ [] := by
  by_cases hskip : tok.level ≠ 5 ∨ tok.conf ≤ 0 ∨ pyStrip tok.text = ""
  · rw [processToken_skip ox oy tag c tok hskip]
    exact h
  · cases hl : lookupLine c (tag, tok.block_num, tok.par_num, tok.line_num) with
    | none =>
      rw [processToken_new ox oy tag c tok hskip hl]
      intro e he
      rcases List.mem_append.mp he with he1 | he1
      · exact h e he1
      · have : e.2.confidences = [tok.conf] := by
          rcases List.mem_singleton.mp he1 with rfl
          rfl
        rw [this]
        simp
    | some acc0 =>
      rw [processToken_merge ox oy tag c tok acc0 hskip hl]
      intro e he
      unfold updateLine at he
      rcases List.mem_map.mp he with ⟨e0, he0, hmap⟩
      by_cases heq : e0.1 = (tag, tok.block_num, tok.par_num, tok.line_num)
      · rw [if_pos heq] at hmap
        rcases hmap.symm with rfl
        simp
      · rw [if_neg heq] at hmap
        rcases hmap.symm with rfl
        exact h _ he0

/-- Helper: every accumulated container built from an invariant-satisfying
start keeps non-empty confidence lists. -/
theorem accumulate_confs_nonempty (data : List Token) (ox oy : ℤ)
    (tag : String) (c : Container)
    (h : ∀ e ∈ c, e.2.confidences ≠ []) :
    ∀ e ∈ accumulate_ocr_lines data ox oy tag c, e.2.confidences ≠ [] := by
  unfold accumulate_ocr_lines
  exact foldl_preserve (fun c => ∀ e ∈ c, e.2.confidences ≠ [])
    (processToken ox oy tag) data c h
    (fun c tok hc => processToken_confs_nonempty ox oy tag c tok hc)

/-- C10: an engine output entry whose hierarchical level differs from 5
contributes nothing to any line record, even with non-empty text and
positive confidence; consequently every confidence list stored in the
container built by the orchestrator is non-empty, so finalization never
averages over an empty list. -/
theorem C10_level_filter :
    (∀ (ox oy : ℤ) (tag : String) (c : Container) (tok : Token),
      tok.level ≠ 5 → processToken ox oy tag c tok = c) ∧
    (∀ (engine : ℕ → Region → List Token) (regions : List Region),
      ∀ e ∈ buildContainer engine regions, e.2.confidences ≠ []) := by
  constructor
  · intro ox oy tag c tok hlevel
    exact processToken_skip ox oy tag c tok (Or.inl hlevel)
  · intro engine regions
    unfold buildContainer
    exact foldl_preserve (fun c => ∀ e ∈ c, e.2.confidences ≠ [])
      (fun c p => accumulate_ocr_lines (engine p.1 p.2) p.2.x p.2.y
        (regionTag p.1) c)
      regions.enum [] (by intro e he; cases he)
      (fun c p hc => accumulate_confs_nonempty (engine p.1 p.2) p.2.x p.2.y
        (regionTag p.1) c hc)

/-- Witness for C10: a level-4 entry with positive confidence and
non-empty text is dropped. -/
theorem C10_witness :
    processToken 0 0 "region_0" [] ⟨4, "hello", 99, 0, 0, 5, 5, 1, 1, 1⟩ = [] :=
  C10_level_filter.1 0 0 "region_0" [] ⟨4, "hello", 99, 0, 0, 5, 5, 1, 1, 1⟩
    (by decide)

/-- C1 (corrected claim, counterexample): with eleven regions, the record
whose tokens came from region index 10 is emitted BEFORE the record from
region index 2, because the aggregation key's region tag is a string and
`"region_10" < "region_2"` lexicographically — so ascending key order does
not preserve the segmenter's region order for region indices 2 < 10. -/
theorem C1_counterexample :
    ceRegions.length = 11 ∧
    ceEngine 2 ⟨0, 20, 10, 10⟩ = [ceToken "w2"] ∧
    ceEngine 10 ⟨0, 100, 10, 10⟩ = [ceToken "w10"] ∧
    (run_ocr_with_config ceEngine ceRegions).1.map OcrResult.text =
      ["w10", "w2"] := by
  decide

/-- C1 (amended): the finalized line records are emitted by iterating the
aggregation keys `(region_tag, block, paragraph, line)` in ascending order
of the key, with the region tag compared lexicographically as a string;
this coincides with the segmenter's region order only while the string
order of the region tags agrees with the index order (for example with at
most ten regions), not in general. -/
theorem C1_sorted_by_key (engine : ℕ → Region → List Token)
    (regions : List Region) :
    List.Sorted keyLe (sortedKeys (buildContainer engine regions)) ∧
    run_ocr_with_config engine regions =
      lines_to_results (buildContainer engine regions) :=
  ⟨List.sorted_insertionSort keyLe _, rfl⟩

end AuraScan
